import Mathlib

/-!
Verification development for the operator clock-in/clock-out backend
(`src/index.js`): the attendance-interval reconciliation and labor-hour
classification engine.

Modelling conventions:
* An instant is modelled as `ℤ`, milliseconds since the Unix epoch, with the
  server's local timezone taken as UTC (so JavaScript's local-date accessors
  `getFullYear/getMonth/getDate/getDay/setDate/setHours` become arithmetic
  modulo `86400000`).  `new Date(y, m, d, 0, 0, 0)` built from the components
  of an instant `t` is exactly `startOfDay t`.
* A quantity of hours is a rational `ℚ`; JavaScript's float division
  `ms / 3600000` is modelled exactly.
* The calendar-day string `"YYYY-MM-DD"` produced by `obtenerFechaDia` is
  represented by the day index `dayNumber t` (the string is determined by,
  and determines, the day index, and is only ever compared for equality or
  used as a record key).
* The weekly bucket key `claveSemana` (a string built from the week's start
  and end dates) is represented by the week-start day index, which
  determines it.
-/

/-- Milliseconds in one day. -/
def msPerDay : ℤ := 86400000

/-- Milliseconds in one hour. -/
def msPerHour : ℤ := 3600000

/-- `new Date(t.getFullYear(), t.getMonth(), t.getDate(), 0, 0, 0)`:
local midnight of the day containing `t`. -/
def startOfDay (t : ℤ) : ℤ := t - t % msPerDay

/-- `new Date(t.getFullYear(), t.getMonth(), t.getDate(), 23, 59, 59)`:
the `finDia` bound used by both report loops — note 23:59:59.000, one
second before the next midnight. -/
def endOfDay (t : ℤ) : ℤ := startOfDay t + 86399000

/-- Day index since the epoch; stands for the `"YYYY-MM-DD"` string of
`obtenerFechaDia`. -/
def dayNumber (t : ℤ) : ℤ := t / msPerDay

/-- JavaScript `Date.prototype.getDay` (0 = Sunday): the epoch day
1970-01-01 was a Thursday (= 4). -/
def getDay (t : ℤ) : ℤ := (dayNumber t + 4) % 7

/-- `esDomingo` from `calcularHorasPTAP`. -/
def esDomingo (t : ℤ) : Bool := getDay t == 0

/-- `obtenerSemana(t).inicio`: the Monday-start midnight of the week
containing `t` (`diff = diaSemana === 0 ? -6 : 1 - diaSemana`). -/
def inicioSemana (t : ℤ) : ℤ :=
  startOfDay t + (if getDay t = 0 then -6 else 1 - getDay t) * msPerDay

/-- Clock-event kind (`tipo` field, enum `['ingreso', 'salida']`). -/
inductive Tipo where
  | ingreso : Tipo
  | salida : Tipo
deriving DecidableEq, Repr

/-- A clock event (`Registro` schema).  Fields irrelevant to the hour
computation are carried so that dependence can be stated. -/
structure Registro where
  nombreOperario : String
  tipo : Tipo
  creadoEn : ℤ
  lat : ℚ
  lng : ℚ
  dentroZona : Bool
  distancia : String
  justificacionExtra : Option String
  turno : Option String
deriving DecidableEq, Repr

/-- An absence record (`Permiso` schema). -/
structure Permiso where
  nombreOperario : String
  fechaPermiso : String
  horasPermiso : ℚ
  motivo : String
deriving DecidableEq, Repr

/-- One step of the interval-pairing loop shared by `calcularHorasPTAP`
and `calcularHorasPTAR`: state is `(ultimoIngreso, intervalos)`. -/
def pasoIntervalos (st : Option ℤ × List (ℤ × ℤ)) (reg : Registro) :
    Option ℤ × List (ℤ × ℤ) :=
  match reg.tipo with
  | Tipo.ingreso => (some reg.creadoEn, st.2)
  | Tipo.salida =>
    match st.1 with
    | some u => (none, st.2 ++ [(u, reg.creadoEn)])
    | none => st

/-- The interval-pairing loop started from an arbitrary pending state. -/
def intervalosDesde (pending : Option ℤ) (registros : List Registro) :
    List (ℤ × ℤ) :=
  (registros.foldl pasoIntervalos (pending, [])).2

/-- The interval builder of both report functions: fold the events in
order with `ultimoIngreso = null` initially and return the interval list. -/
def calcIntervalos (registros : List Registro) : List (ℤ × ℤ) :=
  intervalosDesde none registros

/-- The day-splitting `while (actual < fin)` loop body shared by both
report functions, with an explicit fuel bound (the loop strictly advances
`actual` by at least one millisecond per iteration, so any fuel of at
least `(fin - actual).toNat` computes the full run; see
`diasLoop_fuel_irrelevant`).  Each emitted pair is
`(inicioSegmento, finSegmento) = (max actual inicioDia, min fin finDia)`. -/
def diasLoop : ℕ → ℤ → ℤ → List (ℤ × ℤ)
  | 0, _, _ => []
  | fuel + 1, actual, fin =>
    if actual < fin then
      (max actual (startOfDay actual), min fin (endOfDay actual)) ::
        diasLoop fuel (startOfDay actual + msPerDay) fin
    else []

/-- The Day Segmenter: split one interval at local midnights. -/
def daySegments (ini fin : ℤ) : List (ℤ × ℤ) :=
  diasLoop (fin - ini).toNat ini fin

/-- All day segments of a run: each interval fed through the day splitter,
in order. -/
def segmentosDe (intervalos : List (ℤ × ℤ)) : List (ℤ × ℤ) :=
  (intervalos.map (fun iv => daySegments iv.1 iv.2)).flatten

-- ==================== basic facts about the time helpers ====================

theorem startOfDay_le (t : ℤ) : startOfDay t ≤ t := by
  have h := Int.emod_nonneg t (by norm_num [msPerDay] : (msPerDay : ℤ) ≠ 0)
  simp only [startOfDay]
  omega

theorem lt_startOfDay_add (t : ℤ) : t < startOfDay t + msPerDay := by
  have h := Int.emod_lt_of_pos t (by norm_num [msPerDay] : (0 : ℤ) < msPerDay)
  simp only [startOfDay]
  omega

theorem max_startOfDay (t : ℤ) : max t (startOfDay t) = t :=
  max_eq_left (startOfDay_le t)

theorem startOfDay_add_msPerDay (t : ℤ) :
    startOfDay (startOfDay t + msPerDay) = startOfDay t + msPerDay := by
  simp only [startOfDay, msPerDay]
  omega

/-- Fuel irrelevance for the day-splitting loop: any fuel at least the
millisecond span computes the same list. -/
theorem diasLoop_fuel_irrelevant :
    ∀ (f₁ f₂ : ℕ) (actual fin : ℤ),
      (fin - actual).toNat ≤ f₁ → (fin - actual).toNat ≤ f₂ →
      diasLoop f₁ actual fin = diasLoop f₂ actual fin := by
  intro f₁
  induction f₁ with
  | zero =>
    intro f₂ actual fin h₁ h₂
    have hle : fin ≤ actual := by omega
    cases f₂ with
    | zero => rfl
    | succ n =>
      simp only [diasLoop]
      rw [if_neg (by omega)]
  | succ n ih =>
    intro f₂ actual fin h₁ h₂
    cases f₂ with
    | zero =>
      have hle : fin ≤ actual := by omega
      simp only [diasLoop]
      rw [if_neg (by omega)]
    | succ m =>
      simp only [diasLoop]
      by_cases hlt : actual < fin
      · rw [if_pos hlt, if_pos hlt]
        have hadv : actual < startOfDay actual + msPerDay := lt_startOfDay_add actual
        have : (fin - (startOfDay actual + msPerDay)).toNat ≤ n := by omega
        have : (fin - (startOfDay actual + msPerDay)).toNat ≤ m := by omega
        rw [ih m (startOfDay actual + msPerDay) fin (by omega) (by omega)]
      · rw [if_neg hlt, if_neg hlt]

/-- Unfolding of the Day Segmenter while the loop guard holds. -/
theorem daySegments_of_lt {ini fin : ℤ} (h : ini < fin) :
    daySegments ini fin =
      (ini, min fin (endOfDay ini)) :: daySegments (startOfDay ini + msPerDay) fin := by
  have h1 : (fin - ini).toNat = ((fin - ini).toNat - 1) + 1 := by omega
  simp only [daySegments]
  rw [h1]
  simp only [diasLoop, if_pos h, max_startOfDay]
  have hadv : ini < startOfDay ini + msPerDay := lt_startOfDay_add ini
  rw [diasLoop_fuel_irrelevant ((fin - ini).toNat - 1)
        ((fin - (startOfDay ini + msPerDay)).toNat)
        (startOfDay ini + msPerDay) fin (by omega) (by omega)]

/-- The Day Segmenter emits nothing for a degenerate interval. -/
theorem daySegments_of_ge {ini fin : ℤ} (h : fin ≤ ini) :
    daySegments ini fin = [] := by
  simp only [daySegments]
  have : (fin - ini).toNat = 0 := by omega
  rw [this]
  rfl

-- ==================== PTAP: daily-block classifier ====================

/-- `horasEntre` from `calcularHorasPTAP`: `ms > 0 ? ms / 3600000 : 0`. -/
def horasEntre (fechaInicio fechaFin : ℤ) : ℚ :=
  if 0 < fechaFin - fechaInicio then ((fechaFin - fechaInicio : ℤ) : ℚ) / 3600000 else 0

/-- `interseccion(inicioBloque, finBloque)` from `calcularHorasPTAP`,
clamping the band to the current segment `[inicioSeg, finSeg]`. -/
def interseccion (inicioSeg finSeg inicioBloque finBloque : ℤ) : ℚ :=
  if min finSeg finBloque ≤ max inicioSeg inicioBloque then 0
  else horasEntre (max inicioSeg inicioBloque) (min finSeg finBloque)

/-- One entry of the PTAP `detalle` array. -/
structure DetalleDiaPTAP where
  fecha : ℤ
  domingo : Bool
  horasNormalesDia : ℚ
  horasExtraDia : ℚ
  horasDominicalesDia : ℚ
  horasNocturnas : ℚ
deriving DecidableEq, Repr

/-- The per-day-segment body of the PTAP loop: fixed clock-time bands
morning `[07:00, 12:00)`, afternoon `[14:00, 17:00)` and the overtime
band from 17:00 to `finDia` (23:59:59), intersected with the segment;
the `detalle` entry pushed by the loop.  On a Sunday the entry keeps the
computed `horasNormalesDia`/`horasExtraDia` values and additionally
reports their sum as `horasDominicalesDia`. -/
def clasificaDiaPTAP (inicioSeg finSeg : ℤ) : DetalleDiaPTAP :=
  let sod := startOfDay inicioSeg
  let horasManiana := interseccion inicioSeg finSeg (sod + 7 * msPerHour) (sod + 12 * msPerHour)
  let horasTarde := interseccion inicioSeg finSeg (sod + 14 * msPerHour) (sod + 17 * msPerHour)
  let horasExtraDia := interseccion inicioSeg finSeg (sod + 17 * msPerHour) (endOfDay inicioSeg)
  { fecha := dayNumber inicioSeg
    domingo := esDomingo inicioSeg
    horasNormalesDia := horasManiana + horasTarde
    horasExtraDia := horasExtraDia
    horasDominicalesDia :=
      if esDomingo inicioSeg then (horasManiana + horasTarde) + horasExtraDia else 0
    horasNocturnas := 0 }

/-- Accumulator of the PTAP loop: the three running totals and the
`detalle` array. -/
structure AccPTAP where
  horasNormales : ℚ
  horasExtra : ℚ
  horasDominicales : ℚ
  detalle : List DetalleDiaPTAP
deriving DecidableEq, Repr

/-- One PTAP loop iteration: classify the segment, then either roll the
day entirely into `horasDominicales` (Sunday) or into
`horasNormales`/`horasExtra`. -/
def pasoPTAP (st : AccPTAP) (seg : ℤ × ℤ) : AccPTAP :=
  let d := clasificaDiaPTAP seg.1 seg.2
  if d.domingo then
    { st with
      horasDominicales := st.horasDominicales + (d.horasNormalesDia + d.horasExtraDia)
      detalle := st.detalle ++ [d] }
  else
    { st with
      horasNormales := st.horasNormales + d.horasNormalesDia
      horasExtra := st.horasExtra + d.horasExtraDia
      detalle := st.detalle ++ [d] }

/-- Run the PTAP classification over every day segment of every interval. -/
def acumPTAP (registros : List Registro) : AccPTAP :=
  (segmentosDe (calcIntervalos registros)).foldl pasoPTAP ⟨0, 0, 0, []⟩

/-- `Number(x.toFixed(2))`: the nearest 2-decimal value, ties resolved
toward the larger value ("pick the larger n" in the toFixed spec), which
is round-half-away-from-zero on the nonnegative quantities produced here. -/
def redondear2 (q : ℚ) : ℚ := ((⌊q * 100 + 1 / 2⌋ : ℤ) : ℚ) / 100

/-- The JSON body produced by `calcularHorasPTAP`. -/
structure ReportePTAP where
  totalHoras : ℚ
  horasNormales : ℚ
  horasExtra : ℚ
  horasDominicales : ℚ
  horasNocturnas : ℚ
  horasPermiso : ℚ
  detalle : List DetalleDiaPTAP
deriving DecidableEq, Repr

/-- `calcularHorasPTAP`: totals rounded to 2 decimals, `detalle` emitted
as accumulated (unrounded). -/
def reportePTAP (registros : List Registro) (totalHorasPermiso : ℚ) : ReportePTAP :=
  let a := acumPTAP registros
  { totalHoras := redondear2 (a.horasNormales + a.horasExtra + a.horasDominicales)
    horasNormales := redondear2 a.horasNormales
    horasExtra := redondear2 a.horasExtra
    horasDominicales := redondear2 a.horasDominicales
    horasNocturnas := 0
    horasPermiso := redondear2 totalHorasPermiso
    detalle := a.detalle }

-- ==================== PTAR: weekly-cap classifier ====================

/-- `aFechaColombia`: shift an instant to Colombia local time (UTC-5). -/
def aFechaColombia (t : ℤ) : ℤ := t - 5 * msPerHour

/-- The night-hours computation of `calcularHorasPTAR`: shift the segment
to local time, build the window from 19:00 of the local day of the
shifted segment start to 06:00 of the following local day, and take the
clamped intersection when the guard detects an overlap. -/
def nocturnasSegmento (inicioSeg finSeg : ℤ) : ℚ :=
  let inicioLocal := aFechaColombia inicioSeg
  let finLocal := aFechaColombia finSeg
  let inicio19hLocal := startOfDay inicioLocal + 19 * msPerHour
  let fin6hSiguienteLocal := startOfDay inicioLocal + msPerDay + 6 * msPerHour
  if inicio19hLocal < finLocal ∧ inicioLocal < fin6hSiguienteLocal then
    max 0 (((min finLocal fin6hSiguienteLocal - max inicioLocal inicio19hLocal : ℤ) : ℚ) / 3600000)
  else 0

/-- One weekly bucket of `calcularHorasPTAR` (`semanas[claveSemana]`);
`inicio`/`fin` are the week-bound day indices (date strings in the code). -/
structure SemanaPTAR where
  inicio : ℤ
  fin : ℤ
  horasTotales : ℚ
  horasNormales : ℚ
  horasExtra : ℚ
  horasNocturnas : ℚ
deriving DecidableEq, Repr

/-- One entry of the PTAR `detalleDias` array; `semana` is the week key
(determined by the week-start day index). -/
structure DetalleDiaPTAR where
  fecha : ℤ
  horas : ℚ
  horasNocturnas : ℚ
  semana : ℤ
deriving DecidableEq, Repr

/-- A freshly created weekly bucket (all hour fields zero). -/
def nuevaSemana (clave : ℤ) : SemanaPTAR :=
  { inicio := clave, fin := clave + 6
    horasTotales := 0, horasNormales := 0, horasExtra := 0, horasNocturnas := 0 }

/-- `semanas[claveSemana].horasTotales += horasDelDia;
semanas[claveSemana].horasNocturnas += horasNocturnas`. -/
def sumaSemana (s : SemanaPTAR) (horasDelDia horasNocturnas : ℚ) : SemanaPTAR :=
  { s with
    horasTotales := s.horasTotales + horasDelDia
    horasNocturnas := s.horasNocturnas + horasNocturnas }

/-- Update the week map (a JS object, insertion-ordered association list):
create the bucket on first touch, then accumulate. -/
def upsertSemana (clave : ℤ) (horasDelDia horasNocturnas : ℚ) :
    List (ℤ × SemanaPTAR) → List (ℤ × SemanaPTAR)
  | [] => [(clave, sumaSemana (nuevaSemana clave) horasDelDia horasNocturnas)]
  | (k, s) :: rest =>
    if k = clave then (k, sumaSemana s horasDelDia horasNocturnas) :: rest
    else (k, s) :: upsertSemana clave horasDelDia horasNocturnas rest

/-- Accumulator of the PTAR loop: the week map and the `detalleDias`
array. -/
structure AccPTAR where
  semanas : List (ℤ × SemanaPTAR)
  detalleDias : List DetalleDiaPTAR
deriving DecidableEq, Repr

/-- One PTAR loop iteration: `horasDelDia` is the raw segment span in
hours (no clamp), night hours come from the shifted-window intersection,
and the segment is booked into the Monday-start week of its start. -/
def pasoPTAR (st : AccPTAR) (seg : ℤ × ℤ) : AccPTAR :=
  let horasDelDia : ℚ := ((seg.2 - seg.1 : ℤ) : ℚ) / 3600000
  let hN := nocturnasSegmento seg.1 seg.2
  let clave := dayNumber (inicioSemana seg.1)
  { semanas := upsertSemana clave horasDelDia hN st.semanas
    detalleDias := st.detalleDias ++ [⟨dayNumber seg.1, horasDelDia, hN, clave⟩] }

/-- Run the PTAR accumulation over every day segment of every interval. -/
def acumPTAR (registros : List Registro) : AccPTAR :=
  (segmentosDe (calcIntervalos registros)).foldl pasoPTAR ⟨[], []⟩

/-- The weekly 45-hour cap step applied to each bucket after
accumulation. -/
def aplicarTope (s : SemanaPTAR) : SemanaPTAR :=
  if s.horasTotales ≤ 45 then
    { s with horasNormales := s.horasTotales, horasExtra := 0 }
  else
    { s with horasNormales := 45, horasExtra := s.horasTotales - 45 }

/-- `Object.values(semanas)` after the cap loop. -/
def semanasConTope (registros : List Registro) : List SemanaPTAR :=
  ((acumPTAR registros).semanas).map (fun p => aplicarTope p.2)

/-- The JSON body produced by `calcularHorasPTAR`. -/
structure ReportePTAR where
  totalHoras : ℚ
  horasNormales : ℚ
  horasExtra : ℚ
  horasDominicales : ℚ
  horasNocturnas : ℚ
  horasPermiso : ℚ
  detalleSemanas : List SemanaPTAR
  detalleDias : List DetalleDiaPTAR
deriving DecidableEq, Repr

/-- `calcularHorasPTAR`: grand totals are the bucket sums rounded to 2
decimals; `detalleSemanas` and `detalleDias` are emitted unrounded. -/
def reportePTAR (registros : List Registro) (totalHorasPermiso : ℚ) : ReportePTAR :=
  let semanas := semanasConTope registros
  { totalHoras := redondear2 ((semanas.map SemanaPTAR.horasTotales).sum)
    horasNormales := redondear2 ((semanas.map SemanaPTAR.horasNormales).sum)
    horasExtra := redondear2 ((semanas.map SemanaPTAR.horasExtra).sum)
    horasDominicales := 0
    horasNocturnas := redondear2 ((semanas.map SemanaPTAR.horasNocturnas).sum)
    horasPermiso := redondear2 totalHorasPermiso
    detalleSemanas := semanas
    detalleDias := (acumPTAR registros).detalleDias }

-- ==================== absence aggregation and the route ====================

/-- The `Permiso.find` date-range filter of the `/api/reporte-horas`
route: keep the records whose `fechaPermiso` lies in `[desde, hasta]`
under lexicographic string comparison. -/
def permisosEnRango (permisos : List Permiso) (desde hasta : String) : List Permiso :=
  permisos.filter (fun p => desde ≤ p.fechaPermiso ∧ p.fechaPermiso ≤ hasta)

/-- `permisos.reduce((sum, p) => sum + p.horasPermiso, 0)`. -/
def totalHorasPermisoDe (permisos : List Permiso) (desde hasta : String) : ℚ :=
  (permisosEnRango permisos desde hasta).foldl (fun sum p => sum + p.horasPermiso) 0

/-- The `/api/reporte-horas` route for a PTAP site: aggregate the
absences, then hand the event list to `calcularHorasPTAP`. -/
def reporteHorasPTAP (registros : List Registro) (permisos : List Permiso)
    (desde hasta : String) : ReportePTAP :=
  reportePTAP registros (totalHorasPermisoDe permisos desde hasta)

/-- The `/api/reporte-horas` route for a PTAR site. -/
def reporteHorasPTAR (registros : List Registro) (permisos : List Permiso)
    (desde hasta : String) : ReportePTAR :=
  reportePTAR registros (totalHorasPermisoDe permisos desde hasta)

-- ==================== shared helper lemmas ====================

/-- A clock event with the given kind and timestamp and fixed
payload fields (used to instantiate theorems at concrete inputs). -/
def regDe (tipo : Tipo) (t : ℤ) : Registro :=
  { nombreOperario := "op", tipo := tipo, creadoEn := t, lat := 0, lng := 0,
    dentroZona := true, distancia := "0", justificacionExtra := none, turno := none }

/-- The interval accumulator only ever grows at the tail: folding from
`(p, acc)` yields `acc` followed by the fold from `(p, [])`. -/
theorem intervalos_foldl_acc :
    ∀ (registros : List Registro) (p : Option ℤ) (acc : List (ℤ × ℤ)),
      (registros.foldl pasoIntervalos (p, acc)).2 =
        acc ++ (registros.foldl pasoIntervalos (p, [])).2 := by
  intro registros
  induction registros with
  | nil => intro p acc; simp
  | cons r rest ih =>
    intro p acc
    simp only [List.foldl_cons]
    cases htipo : r.tipo with
    | ingreso =>
      simp only [pasoIntervalos, htipo]
      rw [ih (some r.creadoEn) acc]
    | salida =>
      cases p with
      | none =>
        simp only [pasoIntervalos, htipo]
        exact ih none acc
      | some u =>
        simp only [pasoIntervalos, htipo]
        rw [ih none (acc ++ [(u, r.creadoEn)]), ih none ([] ++ [(u, r.creadoEn)])]
        simp

-- ==================== C6: the Interval Builder ====================

/-- C6.  The Interval Builder pairs each check-out with the most recent
preceding unpaired check-in: started from any pending state, a check-in
event overwrites the pending check-in (the orphan is silently dropped,
yielding no interval and no error), a check-out with no pending check-in
yields nothing, a check-out with pending check-in `u` emits the interval
`(u, check-out time)` at the head of the remaining output and clears the
pending state, an exhausted event list (in particular a trailing unpaired
check-in) yields no further interval, and `calcIntervalos` is this
process started with no pending check-in. -/
theorem c6_interval_builder :
    (∀ registros : List Registro,
      calcIntervalos registros = intervalosDesde none registros) ∧
    (∀ p : Option ℤ, intervalosDesde p [] = []) ∧
    (∀ (r : Registro) (rest : List Registro) (p : Option ℤ),
      r.tipo = Tipo.ingreso →
      intervalosDesde p (r :: rest) = intervalosDesde (some r.creadoEn) rest) ∧
    (∀ (r : Registro) (rest : List Registro),
      r.tipo = Tipo.salida →
      intervalosDesde none (r :: rest) = intervalosDesde none rest) ∧
    (∀ (r : Registro) (rest : List Registro) (u : ℤ),
      r.tipo = Tipo.salida →
      intervalosDesde (some u) (r :: rest) =
        (u, r.creadoEn) :: intervalosDesde none rest) := by
  refine ⟨fun _ => rfl, fun _ => rfl, ?_, ?_, ?_⟩
  · intro r rest p htipo
    simp only [intervalosDesde, List.foldl_cons, pasoIntervalos, htipo]
  · intro r rest htipo
    simp only [intervalosDesde, List.foldl_cons, pasoIntervalos, htipo]
  · intro r rest u htipo
    simp only [intervalosDesde, List.foldl_cons, pasoIntervalos, htipo]
    rw [intervalos_foldl_acc rest none ([] ++ [(u, r.creadoEn)])]
    simp

/-- Witness for C6: a check-out at time 7 with pending check-in at 5
emits the interval `(5, 7)`; the orphaned check-in inside the remaining
list (a trailing check-in at 9) contributes nothing. -/
theorem c6_interval_builder_witness :
    intervalosDesde (some 5) [regDe Tipo.salida 7, regDe Tipo.ingreso 9] = [(5, 7)] := by
  rw [c6_interval_builder.2.2.2.2 (regDe Tipo.salida 7) [regDe Tipo.ingreso 9] 5 rfl]
  rw [c6_interval_builder.2.2.1 (regDe Tipo.ingreso 9) [] none rfl]
  rw [c6_interval_builder.2.1 (some (regDe Tipo.ingreso 9).creadoEn)]
  rfl

-- ==================== C2: the weekly 45-hour cap ====================

/-- C2.  After the cap step, every weekly bucket of the PTAR report has
`regular = min(total, 45)` and `overtime = max(0, total - 45)`; hence
`regular + overtime = total` and overtime is positive only when the total
exceeds 45. -/
theorem c2_weekly_cap (registros : List Registro) (hp : ℚ)
    (s : SemanaPTAR) (hs : s ∈ (reportePTAR registros hp).detalleSemanas) :
    s.horasNormales = min s.horasTotales 45 ∧
    s.horasExtra = max 0 (s.horasTotales - 45) ∧
    s.horasNormales + s.horasExtra = s.horasTotales ∧
    (0 < s.horasExtra → 45 < s.horasTotales) := by
  simp only [reportePTAR, semanasConTope, List.mem_map] at hs
  obtain ⟨p, hmem, rfl⟩ := hs
  simp only [aplicarTope]
  by_cases h : p.2.horasTotales ≤ 45
  · rw [if_pos h]
    refine ⟨(min_eq_left h).symm, ?_, by simp, by simp⟩
    rw [max_eq_left (by linarith)]
  · rw [if_neg h]
    push_neg at h
    refine ⟨(min_eq_right (le_of_lt h)).symm, ?_, by ring, fun _ => h⟩
    rw [max_eq_right (by linarith)]

/-- Witness for C2: a single 08:00–17:00 Thursday shift (1970-01-01)
lands in one weekly bucket with 9 total hours, 9 regular, 0 overtime. -/
theorem c2_weekly_cap_witness :
    ({ inicio := -3, fin := 3, horasTotales := 9, horasNormales := 9,
       horasExtra := 0, horasNocturnas := 0 } : SemanaPTAR).horasNormales =
      min ({ inicio := -3, fin := 3, horasTotales := 9, horasNormales := 9,
             horasExtra := 0, horasNocturnas := 0 } : SemanaPTAR).horasTotales 45 := by
  have hseg : daySegments 28800000 61200000 = [(28800000, 61200000)] := by
    rw [daySegments_of_lt (by norm_num), daySegments_of_ge (by norm_num [startOfDay, msPerDay])]
    norm_num [endOfDay, startOfDay, msPerDay]
  have hmem :
      ({ inicio := -3, fin := 3, horasTotales := 9, horasNormales := 9,
         horasExtra := 0, horasNocturnas := 0 } : SemanaPTAR) ∈
        (reportePTAR [regDe Tipo.ingreso 28800000,
          regDe Tipo.salida 61200000] 0).detalleSemanas := by
    have h1 : calcIntervalos [regDe Tipo.ingreso 28800000, regDe Tipo.salida 61200000] =
        [(28800000, 61200000)] := by rfl
    simp only [reportePTAR, semanasConTope, acumPTAR, segmentosDe, regDe, h1, hseg,
      List.map_cons, List.map_nil, List.flatten, List.append_nil, List.foldl_cons,
      List.foldl_nil, pasoPTAR, nocturnasSegmento, aFechaColombia, inicioSemana, getDay,
      dayNumber, startOfDay, msPerDay, msPerHour, upsertSemana, nuevaSemana, sumaSemana,
      aplicarTope]
    norm_num
  exact (c2_weekly_cap [regDe Tipo.ingreso 28800000, regDe Tipo.salida 61200000] 0 _ hmem).1

-- ==================== C4: the PTAR night window ====================

/-- C4.  Write `sL, eL` for the timezone-shifted segment endpoints and
`[w1, w2]` for the night window (19:00 of the local calendar day of `sL`
to 06:00 of the following local day).  Then the segment's night hours
are: its full duration when it lies inside the window, `0` when it lies
outside, and in general exactly the length of its overlap with the
window. -/
theorem c4_night_window (s e sL eL w1 w2 : ℤ)
    (hs : sL = aFechaColombia s) (he : eL = aFechaColombia e)
    (hw1 : w1 = startOfDay sL + 19 * msPerHour)
    (hw2 : w2 = startOfDay sL + msPerDay + 6 * msPerHour)
    (hse : s ≤ e) :
    (w1 ≤ sL → eL ≤ w2 → nocturnasSegmento s e = ((e - s : ℤ) : ℚ) / 3600000) ∧
    (eL ≤ w1 ∨ w2 ≤ sL → nocturnasSegmento s e = 0) ∧
    nocturnasSegmento s e = ((max 0 (min eL w2 - max sL w1) : ℤ) : ℚ) / 3600000 := by
  have hdiff : aFechaColombia e - aFechaColombia s = e - s := by
    simp [aFechaColombia]
  have hseL : sL ≤ eL := by
    rw [hs, he]; simp only [aFechaColombia]; omega
  simp only [nocturnasSegmento, ← hs, ← he, ← hw1, ← hw2]
  have hmax : ∀ x : ℤ, max (0 : ℚ) (((x : ℤ) : ℚ) / (3600000 : ℚ)) =
      ((max 0 x : ℤ) : ℚ) / 3600000 := by
    intro x
    rw [Int.cast_max, ← max_div_div_right (by norm_num : (0 : ℚ) ≤ 3600000)]
    norm_num
  by_cases hguard : w1 < eL ∧ sL < w2
  · rw [if_pos hguard]
    refine ⟨?_, ?_, hmax _⟩
    · intro h1 h2
      rw [min_eq_left h2, max_eq_left h1]
      have heq : eL - sL = e - s := by rw [hs, he]; exact hdiff
      rw [heq, max_eq_right (div_nonneg
        (by exact_mod_cast (by omega : (0 : ℤ) ≤ e - s)) (by norm_num))]
    · intro h
      rcases h with h | h
      · exact absurd hguard.1 (not_lt.mpr h)
      · exact absurd hguard.2 (not_lt.mpr h)
  · rw [if_neg hguard]
    push_neg at hguard
    refine ⟨?_, fun _ => rfl, ?_⟩
    · intro h1 h2
      have h' := hdiff
      rw [← hs, ← he] at h'
      rcases le_or_lt eL w1 with h | h
      · have hes : e - s = 0 := by omega
        rw [hes]
        norm_num
      · have hw2sL := hguard h
        have hes : e - s = 0 := by omega
        rw [hes]
        norm_num
    · have hle : min eL w2 - max sL w1 ≤ 0 := by
        rcases le_or_lt eL w1 with h | h
        · have ha : min eL w2 ≤ eL := min_le_left _ _
          have hb : w1 ≤ max sL w1 := le_max_right _ _
          omega
        · have hw2sL := hguard h
          have ha : min eL w2 ≤ w2 := min_le_right _ _
          have hb : sL ≤ max sL w1 := le_max_left _ _
          omega
      rw [max_eq_left hle]
      norm_num

/-- Witness for C4: the server-time segment 01:00–01:33:20 of 1970-01-02
is 20:00–20:33:20 local Colombia time of 1970-01-01, fully inside that
day's night window, so its night hours equal its full duration. -/
theorem c4_night_window_witness :
    nocturnasSegmento 90000000 92000000 = ((92000000 - 90000000 : ℤ) : ℚ) / 3600000 :=
  (c4_night_window 90000000 92000000 (aFechaColombia 90000000) (aFechaColombia 92000000)
      (startOfDay (aFechaColombia 90000000) + 19 * msPerHour)
      (startOfDay (aFechaColombia 90000000) + msPerDay + 6 * msPerHour)
      rfl rfl rfl rfl (by norm_num)).1
    (by norm_num [startOfDay, aFechaColombia, msPerHour, msPerDay])
    (by norm_num [startOfDay, aFechaColombia, msPerHour, msPerDay])

-- ==================== C5: the daily-block worked example ====================

/-- C5.  A single interval clocking in at 06:55 and out at 18:30 on
Wednesday 1970-01-07 yields regular = 8.0 (5.0 morning + 3.0 afternoon),
overtime = 1.5 (17:00-18:30) and Sunday premium = 0 in the PTAP report. -/
theorem c5_daily_block_example :
    (reportePTAP [regDe Tipo.ingreso 543300000, regDe Tipo.salida 585000000] 0).horasNormales
        = 8 ∧
    (reportePTAP [regDe Tipo.ingreso 543300000, regDe Tipo.salida 585000000] 0).horasExtra
        = 3 / 2 ∧
    (reportePTAP [regDe Tipo.ingreso 543300000, regDe Tipo.salida 585000000] 0).horasDominicales
        = 0 := by
  have h1 : calcIntervalos [regDe Tipo.ingreso 543300000, regDe Tipo.salida 585000000] =
      [(543300000, 585000000)] := by rfl
  have hseg : daySegments 543300000 585000000 = [(543300000, 585000000)] := by
    rw [daySegments_of_lt (by norm_num), daySegments_of_ge (by norm_num [startOfDay, msPerDay])]
    norm_num [endOfDay, startOfDay, msPerDay]
  have hdom : esDomingo 543300000 = false := by decide
  simp only [reportePTAP, acumPTAP, segmentosDe, regDe, h1, hseg, List.map_cons, List.map_nil,
    List.flatten, List.append_nil, List.foldl_cons, List.foldl_nil, pasoPTAP,
    clasificaDiaPTAP, hdom, dayNumber, startOfDay, endOfDay, msPerDay, msPerHour,
    interseccion, horasEntre, redondear2]
  norm_num [min_def, max_def]

-- ==================== C1: the Day Segmenter ====================

/-- Counterexample to C1.  For the interval 23:00 (1970-01-01) to 01:00
(1970-01-02) the splitter yields segments `[23:00:00, 23:59:59.000]` and
`[00:00:00, 01:00:00]`: the second segment does not start where the first
ends (a one-second gap at midnight), and the summed segment lengths fall
1000 ms short of the interval span, so the union does not reconstruct
the interval. -/
theorem c1_counterexample :
    daySegments 82800000 90000000 = [(82800000, 86399000), (86400000, 90000000)] ∧
    ¬ List.Chain' (fun a b : ℤ × ℤ => b.1 = a.2) (daySegments 82800000 90000000) ∧
    ((daySegments 82800000 90000000).map (fun p => p.2 - p.1)).sum ≠
      90000000 - 82800000 := by
  have hseg : daySegments 82800000 90000000 =
      [(82800000, 86399000), (86400000, 90000000)] := by
    rw [daySegments_of_lt (by norm_num),
      daySegments_of_lt (by norm_num [startOfDay, msPerDay]),
      daySegments_of_ge (by norm_num [startOfDay, msPerDay])]
    norm_num [endOfDay, startOfDay, msPerDay, min_def, max_def]
  refine ⟨hseg, ?_, ?_⟩
  · rw [hseg]
    simp only [List.chain'_cons, List.chain'_singleton, and_true]
    norm_num
  · rw [hseg]
    norm_num

/-- Structure of the Day Segmenter's output, by strong induction on the
millisecond span: the list is nonempty, starts at the interval start,
consecutive segments are separated by exactly 1000 ms, every recorded
segment end is `min fin (endOfDay start)`, the covered length is the
interval span minus 1000 ms per crossed midnight, and (when the start
does not fall in the lost `[23:59:59, 24:00:00)` sliver) every segment is
non-degenerate. -/
theorem daySegments_spec_aux :
    ∀ (n : ℕ) (ini fin : ℤ), (fin - ini).toNat ≤ n → ini < fin →
      daySegments ini fin ≠ [] ∧
      (∀ p ∈ (daySegments ini fin).head?, p.1 = ini) ∧
      List.Chain' (fun a b : ℤ × ℤ => b.1 = a.2 + 1000) (daySegments ini fin) ∧
      (∀ p ∈ (daySegments ini fin).getLast?, p.2 = min fin (endOfDay p.1)) ∧
      (∀ p ∈ (daySegments ini fin).getLast?,
        ((daySegments ini fin).map (fun q => q.2 - q.1)).sum =
          p.2 - ini - 1000 * (((daySegments ini fin).length : ℤ) - 1)) ∧
      (ini % msPerDay ≤ 86399000 → ∀ p ∈ daySegments ini fin, p.1 ≤ p.2) := by
  intro n
  induction n using Nat.strong_induction_on with
  | _ n ih =>
    intro ini fin hn h
    have hnm : ini < startOfDay ini + msPerDay := lt_startOfDay_add ini
    have heod : endOfDay ini = startOfDay ini + msPerDay - 1000 := by
      simp only [endOfDay, msPerDay]
      ring
    rw [daySegments_of_lt h]
    by_cases hnext : startOfDay ini + msPerDay < fin
    · obtain ⟨hne, hhead, hchain, hlast, hsum, hpos⟩ :=
        ih (fin - (startOfDay ini + msPerDay)).toNat (by omega)
          (startOfDay ini + msPerDay) fin (le_refl _) hnext
      have hminT : min fin (endOfDay ini) = endOfDay ini := min_eq_right (by omega)
      obtain ⟨t, ts, hTeq⟩ := List.exists_cons_of_ne_nil hne
      refine ⟨by simp, ?_, ?_, ?_, ?_, ?_⟩
      · intro p hp
        simp only [List.head?_cons, Option.mem_def, Option.some.injEq] at hp
        rw [← hp]
      · refine List.chain'_cons'.mpr ⟨?_, hchain⟩
        intro b hb
        have := hhead b hb
        simp only [this, hminT]
        omega
      · intro p hp
        rw [hTeq, List.getLast?_cons_cons] at hp
        have := hlast p (by rw [hTeq]; exact hp)
        exact this
      · intro p hp
        rw [hTeq, List.getLast?_cons_cons] at hp
        have hs := hsum p (by rw [hTeq]; exact hp)
        simp only [List.map_cons, List.sum_cons, List.length_cons, hminT]
        rw [hs]
        push_cast
        ring_nf
        omega
      · intro hmod p hp
        rcases List.mem_cons.mp hp with hp | hp
        · rw [hp]
          refine le_min (le_of_lt h) ?_
          simp only [endOfDay, startOfDay, msPerDay] at *
          omega
        · refine hpos ?_ p hp
          simp only [startOfDay, msPerDay] at *
          omega
    · push_neg at hnext
      rw [daySegments_of_ge hnext]
      refine ⟨by simp, ?_, List.chain'_singleton _, ?_, ?_, ?_⟩
      · intro p hp
        simp only [List.head?_cons, Option.mem_def, Option.some.injEq] at hp
        rw [← hp]
      · intro p hp
        simp only [List.getLast?_singleton, Option.mem_def, Option.some.injEq] at hp
        rw [← hp]
      · intro p hp
        simp only [List.getLast?_singleton, Option.mem_def, Option.some.injEq] at hp
        rw [← hp]
        simp
      · intro hmod p hp
        simp only [List.mem_singleton] at hp
        rw [hp]
        refine le_min (le_of_lt h) ?_
        simp only [endOfDay, startOfDay, msPerDay] at *
        omega

/-- C1, amended.  For every interval with `start < end`, the splitter's
segment list is nonempty, its first segment starts at the interval start,
each later segment starts exactly 1000 ms (one second) after the previous
one ends (so segments are non-overlapping but separated by a one-second
gap at each midnight), every segment — the last included — ends at
`min(interval end, 23:59:59.000 of its day)`, and the union covers the
interval span minus 1000 ms per crossed midnight; when the interval start
is not inside a `[23:59:59, 24:00:00)` sliver every segment is
non-degenerate. -/
theorem c1_day_segmenter_amended (ini fin : ℤ) (h : ini < fin) :
    daySegments ini fin ≠ [] ∧
    (∀ p ∈ (daySegments ini fin).head?, p.1 = ini) ∧
    List.Chain' (fun a b : ℤ × ℤ => b.1 = a.2 + 1000) (daySegments ini fin) ∧
    (∀ p ∈ (daySegments ini fin).getLast?, p.2 = min fin (endOfDay p.1)) ∧
    (∀ p ∈ (daySegments ini fin).getLast?,
      ((daySegments ini fin).map (fun q => q.2 - q.1)).sum =
        p.2 - ini - 1000 * (((daySegments ini fin).length : ℤ) - 1)) ∧
    (ini % msPerDay ≤ 86399000 → ∀ p ∈ daySegments ini fin, p.1 ≤ p.2) :=
  daySegments_spec_aux (fin - ini).toNat ini fin (le_refl _) h

/-- Witness for the amended C1 at the counterexample interval: the
segment list is nonempty and consecutive segments are separated by
exactly one second. -/
theorem c1_day_segmenter_amended_witness :
    daySegments 82800000 90000000 ≠ [] ∧
    List.Chain' (fun a b : ℤ × ℤ => b.1 = a.2 + 1000) (daySegments 82800000 90000000) :=
  ⟨(c1_day_segmenter_amended 82800000 90000000 (by decide)).1,
   (c1_day_segmenter_amended 82800000 90000000 (by decide)).2.2.1⟩

-- ==================== PTAP fold structure (used by C3 and C9) ====================

/-- Per-day entry invariant of the daily-block classifier: on a Sunday
the entry's `horasDominicalesDia` is the sum of its (still reported)
regular and overtime hours; otherwise it is zero. -/
theorem clasificaDiaPTAP_dominicales (a b : ℤ) :
    ((clasificaDiaPTAP a b).domingo = true →
      (clasificaDiaPTAP a b).horasDominicalesDia =
        (clasificaDiaPTAP a b).horasNormalesDia + (clasificaDiaPTAP a b).horasExtraDia) ∧
    ((clasificaDiaPTAP a b).domingo = false →
      (clasificaDiaPTAP a b).horasDominicalesDia = 0) := by
  simp only [clasificaDiaPTAP]
  by_cases h : esDomingo a
  · simp [h]
  · simp [h]

/-- Unrolling of the PTAP accumulation fold: the detail is the pointwise
classification of the segments in order, and each running total is the
starting value plus the corresponding per-day contributions (regular and
overtime from non-Sunday entries only, Sunday premium from Sunday
entries only). -/
theorem acumPTAP_foldl_spec :
    ∀ (segs : List (ℤ × ℤ)) (st : AccPTAP),
      (segs.foldl pasoPTAP st).detalle =
        st.detalle ++ segs.map (fun s => clasificaDiaPTAP s.1 s.2) ∧
      (segs.foldl pasoPTAP st).horasNormales = st.horasNormales +
        ((segs.map (fun s => clasificaDiaPTAP s.1 s.2)).map
          (fun d => if d.domingo then 0 else d.horasNormalesDia)).sum ∧
      (segs.foldl pasoPTAP st).horasExtra = st.horasExtra +
        ((segs.map (fun s => clasificaDiaPTAP s.1 s.2)).map
          (fun d => if d.domingo then 0 else d.horasExtraDia)).sum ∧
      (segs.foldl pasoPTAP st).horasDominicales = st.horasDominicales +
        ((segs.map (fun s => clasificaDiaPTAP s.1 s.2)).map
          (fun d => if d.domingo then d.horasNormalesDia + d.horasExtraDia else 0)).sum := by
  intro segs
  induction segs with
  | nil => intro st; simp
  | cons s rest ih =>
    intro st
    simp only [List.foldl_cons, List.map_cons, List.sum_cons]
    obtain ⟨ihd, ihn, ihe, ihdom⟩ := ih (pasoPTAP st s)
    by_cases h : (clasificaDiaPTAP s.1 s.2).domingo
    · have hstep : pasoPTAP st s =
          { st with
            horasDominicales := st.horasDominicales +
              ((clasificaDiaPTAP s.1 s.2).horasNormalesDia +
                (clasificaDiaPTAP s.1 s.2).horasExtraDia)
            detalle := st.detalle ++ [clasificaDiaPTAP s.1 s.2] } := by
        simp only [pasoPTAP, if_pos h]
      refine ⟨?_, ?_, ?_, ?_⟩
      · rw [ihd, hstep]; simp
      · rw [ihn, hstep]; simp [h]
      · rw [ihe, hstep]; simp [h]
      · rw [ihdom, hstep]; simp only [h, if_pos]; ring
    · have hstep : pasoPTAP st s =
          { st with
            horasNormales := st.horasNormales + (clasificaDiaPTAP s.1 s.2).horasNormalesDia
            horasExtra := st.horasExtra + (clasificaDiaPTAP s.1 s.2).horasExtraDia
            detalle := st.detalle ++ [clasificaDiaPTAP s.1 s.2] } := by
        simp only [pasoPTAP, if_neg h]
      refine ⟨?_, ?_, ?_, ?_⟩
      · rw [ihd, hstep]; simp
      · rw [ihn, hstep]; simp [eq_false_of_ne_true h]; ring
      · rw [ihe, hstep]; simp [eq_false_of_ne_true h]; ring
      · rw [ihdom, hstep]; simp [eq_false_of_ne_true h]

/-- The three per-day contributions add up, entry by entry, to the single
bucket each entry was booked into. -/
theorem sum_clasifica_split (segs : List (ℤ × ℤ)) :
    ((segs.map (fun s => clasificaDiaPTAP s.1 s.2)).map
      (fun d => if d.domingo then 0 else d.horasNormalesDia)).sum +
    ((segs.map (fun s => clasificaDiaPTAP s.1 s.2)).map
      (fun d => if d.domingo then 0 else d.horasExtraDia)).sum +
    ((segs.map (fun s => clasificaDiaPTAP s.1 s.2)).map
      (fun d => if d.domingo then d.horasNormalesDia + d.horasExtraDia else 0)).sum =
    ((segs.map (fun s => clasificaDiaPTAP s.1 s.2)).map
      (fun d => if d.domingo then d.horasDominicalesDia
                else d.horasNormalesDia + d.horasExtraDia)).sum := by
  induction segs with
  | nil => simp
  | cons s rest ih =>
    simp only [List.map_cons, List.sum_cons]
    by_cases h : (clasificaDiaPTAP s.1 s.2).domingo
    · have hdom := (clasificaDiaPTAP_dominicales s.1 s.2).1 h
      simp only [h, if_pos, hdom]
      linear_combination ih
    · simp only [eq_false_of_ne_true h, if_neg, Bool.false_eq_true, not_false_iff, if_false]
      linear_combination ih

/-- Sunday entries carry their premium in `horasDominicalesDia`, so the
premium bucket may be summed from the recorded field directly. -/
theorem sum_dominicales_congr (segs : List (ℤ × ℤ)) :
    ((segs.map (fun s => clasificaDiaPTAP s.1 s.2)).map
      (fun d => if d.domingo then d.horasNormalesDia + d.horasExtraDia else 0)).sum =
    ((segs.map (fun s => clasificaDiaPTAP s.1 s.2)).map
      (fun d => if d.domingo then d.horasDominicalesDia else 0)).sum := by
  induction segs with
  | nil => simp
  | cons s rest ih =>
    simp only [List.map_cons, List.sum_cons]
    by_cases h : (clasificaDiaPTAP s.1 s.2).domingo
    · have hdom := (clasificaDiaPTAP_dominicales s.1 s.2).1 h
      simp only [h, if_pos, hdom]
      linear_combination ih
    · simp only [eq_false_of_ne_true h, if_neg, Bool.false_eq_true, not_false_iff, if_false]
      linear_combination ih

-- ==================== C9: the PTAP grand total ====================

/-- C9.  The PTAP grand total is, before the final 2-decimal rounding,
exactly `horasNormales + horasExtra + horasDominicales`, and that sum
counts each day entry in exactly one bucket: it equals the sum over the
detail of the Sunday premium for Sunday entries and of regular + overtime
for the other entries. -/
theorem c9_total_sum (registros : List Registro) (hp : ℚ) :
    (reportePTAP registros hp).totalHoras =
      redondear2 ((acumPTAP registros).horasNormales + (acumPTAP registros).horasExtra +
        (acumPTAP registros).horasDominicales) ∧
    (acumPTAP registros).horasNormales + (acumPTAP registros).horasExtra +
        (acumPTAP registros).horasDominicales =
      (((reportePTAP registros hp).detalle).map
        (fun d => if d.domingo then d.horasDominicalesDia
                  else d.horasNormalesDia + d.horasExtraDia)).sum := by
  refine ⟨rfl, ?_⟩
  obtain ⟨hd, hn, he, hdom⟩ :=
    acumPTAP_foldl_spec (segmentosDe (calcIntervalos registros)) ⟨0, 0, 0, []⟩
  have hdet : (reportePTAP registros hp).detalle = (acumPTAP registros).detalle := rfl
  rw [hdet]
  show (acumPTAP registros).horasNormales + (acumPTAP registros).horasExtra +
      (acumPTAP registros).horasDominicales = _
  simp only [acumPTAP] at hd hn he hdom ⊢
  rw [hn, he, hdom, hd]
  simp only [List.nil_append]
  rw [zero_add, zero_add, zero_add]
  exact sum_clasifica_split _

-- ==================== C3: Sunday reclassification (PTAP) ====================

/-- The detail entry produced for a 07:00-12:00 shift on Sunday
1970-01-04: the Sunday premium is recorded, but the regular-hours field
of the entry keeps its computed value 5 rather than 0. -/
def detalleDomingo : DetalleDiaPTAP :=
  { fecha := 3, domingo := true, horasNormalesDia := 5, horasExtraDia := 0,
    horasDominicalesDia := 5, horasNocturnas := 0 }

/-- Concrete evaluation of the PTAP report for the Sunday shift
07:00-12:00 on 1970-01-04. -/
theorem reportePTAP_domingo_eval :
    (reportePTAP [regDe Tipo.ingreso 284400000, regDe Tipo.salida 302400000] 0).detalle =
      [detalleDomingo] := by
  have h1 : calcIntervalos [regDe Tipo.ingreso 284400000, regDe Tipo.salida 302400000] =
      [(284400000, 302400000)] := by rfl
  have hseg : daySegments 284400000 302400000 = [(284400000, 302400000)] := by
    rw [daySegments_of_lt (by norm_num), daySegments_of_ge (by norm_num [startOfDay, msPerDay])]
    norm_num [endOfDay, startOfDay, msPerDay, min_def, max_def]
  have hdom : esDomingo 284400000 = true := by decide
  simp only [reportePTAP, acumPTAP, segmentosDe, regDe, h1, hseg, List.map_cons, List.map_nil,
    List.flatten, List.append_nil, List.foldl_cons, List.foldl_nil, pasoPTAP,
    clasificaDiaPTAP, hdom, dayNumber, startOfDay, endOfDay, msPerDay, msPerHour,
    interseccion, horasEntre, detalleDomingo]
  norm_num [min_def, max_def, DetalleDiaPTAP.mk.injEq]

/-- Counterexample to C3.  For the Sunday shift 07:00-12:00 on
1970-01-04 the single per-day detail entry has `domingo = true` but
reports `horasNormalesDia = 5`, not 0: per-day regular/overtime are not
reported as 0 in the detail entries. -/
theorem c3_counterexample :
    ((reportePTAP [regDe Tipo.ingreso 284400000, regDe Tipo.salida 302400000] 0).detalle.map
      (fun d => (d.domingo, d.horasNormalesDia))) = [(true, 5)] ∧
    (5 : ℚ) ≠ 0 := by
  rw [reportePTAP_domingo_eval]
  refine ⟨rfl, by norm_num⟩

/-- C3, amended.  On a Sunday the day's premium equals that day's regular
plus overtime hours and the accumulated regular/overtime totals receive
no contribution from the day (they sum only non-Sunday entries), while
the accumulated Sunday premium sums exactly the Sunday entries; but the
per-day detail entry keeps the computed regular/overtime values in
`horasNormalesDia`/`horasExtraDia` (they are not reported as 0 there),
and non-Sunday entries have `horasDominicalesDia = 0`. -/
theorem c3_sunday_amended (registros : List Registro) (hp : ℚ) :
    (∀ d ∈ (reportePTAP registros hp).detalle,
      (d.domingo = true → d.horasDominicalesDia = d.horasNormalesDia + d.horasExtraDia) ∧
      (d.domingo = false → d.horasDominicalesDia = 0)) ∧
    (acumPTAP registros).horasNormales =
      (((reportePTAP registros hp).detalle).map
        (fun d => if d.domingo then 0 else d.horasNormalesDia)).sum ∧
    (acumPTAP registros).horasExtra =
      (((reportePTAP registros hp).detalle).map
        (fun d => if d.domingo then 0 else d.horasExtraDia)).sum ∧
    (acumPTAP registros).horasDominicales =
      (((reportePTAP registros hp).detalle).map
        (fun d => if d.domingo then d.horasDominicalesDia else 0)).sum := by
  obtain ⟨hd, hn, he, hdom⟩ :=
    acumPTAP_foldl_spec (segmentosDe (calcIntervalos registros)) ⟨0, 0, 0, []⟩
  have hdet : (reportePTAP registros hp).detalle = (acumPTAP registros).detalle := rfl
  have hdet2 : (acumPTAP registros).detalle =
      (segmentosDe (calcIntervalos registros)).map (fun s => clasificaDiaPTAP s.1 s.2) := by
    show (List.foldl pasoPTAP ⟨0, 0, 0, []⟩ (segmentosDe (calcIntervalos registros))).detalle = _
    rw [hd]
    simp
  refine ⟨?_, ?_, ?_, ?_⟩
  · intro d hdmem
    rw [hdet, hdet2] at hdmem
    obtain ⟨s, _, rfl⟩ := List.mem_map.mp hdmem
    exact clasificaDiaPTAP_dominicales s.1 s.2
  · rw [hdet, hdet2]
    show (List.foldl pasoPTAP ⟨0, 0, 0, []⟩ (segmentosDe (calcIntervalos registros))).horasNormales = _
    rw [hn]
    simp
  · rw [hdet, hdet2]
    show (List.foldl pasoPTAP ⟨0, 0, 0, []⟩ (segmentosDe (calcIntervalos registros))).horasExtra = _
    rw [he]
    simp
  · rw [hdet, hdet2]
    show (List.foldl pasoPTAP ⟨0, 0, 0, []⟩ (segmentosDe (calcIntervalos registros))).horasDominicales = _
    rw [hdom]
    rw [sum_dominicales_congr]
    simp

/-- Witness for the amended C3: the concrete Sunday entry of the
07:00-12:00 shift on 1970-01-04 satisfies
`horasDominicalesDia = horasNormalesDia + horasExtraDia`. -/
theorem c3_sunday_amended_witness :
    detalleDomingo.horasDominicalesDia =
      detalleDomingo.horasNormalesDia + detalleDomingo.horasExtraDia :=
  ((c3_sunday_amended [regDe Tipo.ingreso 284400000, regDe Tipo.salida 302400000] 0).1
    detalleDomingo (by rw [reportePTAP_domingo_eval]; exact List.mem_singleton.mpr rfl)).1 rfl

-- ==================== C8: 2-decimal rounding ====================

/-- `redondear2` is idempotent: a value already rounded to 2 decimals is
its own rounding. -/
theorem redondear2_idem (q : ℚ) : redondear2 (redondear2 q) = redondear2 q := by
  simp only [redondear2]
  have h : ((⌊q * 100 + 1 / 2⌋ : ℚ)) / 100 * 100 + 1 / 2 =
      (⌊q * 100 + 1 / 2⌋ : ℚ) + 1 / 2 := by
    rw [div_mul_cancel₀ _ (by norm_num : (100 : ℚ) ≠ 0)]
  rw [h, Int.floor_int_add]
  norm_num

/-- `redondear2` fixes zero. -/
theorem redondear2_zero : redondear2 0 = 0 := by
  norm_num [redondear2]

/-- The one-second PTAP detail entry 07:00:00-07:00:01 (Thursday
1970-01-01): its regular hours are 1/3600, not a 2-decimal value. -/
def detalleUnSegundo : DetalleDiaPTAP :=
  { fecha := 0, domingo := false, horasNormalesDia := 1 / 3600, horasExtraDia := 0,
    horasDominicalesDia := 0, horasNocturnas := 0 }

/-- Counterexample to C8.  The detail entry for a one-second shift
07:00:00-07:00:01 carries `horasNormalesDia = 1/3600`, which is not equal
to its 2-decimal rounding: detail entries are emitted unrounded. -/
theorem c8_counterexample :
    (reportePTAP [regDe Tipo.ingreso 25200000, regDe Tipo.salida 25201000] 0).detalle =
      [detalleUnSegundo] ∧
    redondear2 ((1 : ℚ) / 3600) ≠ (1 : ℚ) / 3600 := by
  constructor
  · have h1 : calcIntervalos [regDe Tipo.ingreso 25200000, regDe Tipo.salida 25201000] =
        [(25200000, 25201000)] := by rfl
    have hseg : daySegments 25200000 25201000 = [(25200000, 25201000)] := by
      rw [daySegments_of_lt (by norm_num),
        daySegments_of_ge (by norm_num [startOfDay, msPerDay])]
      norm_num [endOfDay, startOfDay, msPerDay, min_def, max_def]
    have hdom : esDomingo 25200000 = false := by decide
    simp only [reportePTAP, acumPTAP, segmentosDe, regDe, h1, hseg, List.map_cons,
      List.map_nil, List.flatten, List.append_nil, List.foldl_cons, List.foldl_nil, pasoPTAP,
      clasificaDiaPTAP, hdom, dayNumber, startOfDay, endOfDay, msPerDay, msPerHour,
      interseccion, horasEntre, detalleUnSegundo]
    norm_num [min_def, max_def, DetalleDiaPTAP.mk.injEq]
  · norm_num [redondear2]

/-- C8, amended.  The grand totals of both reports (`totalHoras`,
`horasNormales`, `horasExtra`, `horasDominicales`, `horasNocturnas`,
`horasPermiso`) are rounded to 2 decimal places (ties toward the larger
value, i.e. half-away-from-zero on these nonnegative outputs) — each is
a fixed point of `redondear2` —, but the numeric fields of the per-day
and per-week detail entries are emitted unrounded. -/
theorem c8_rounding_amended (registros : List Registro) (hp : ℚ) :
    redondear2 (reportePTAP registros hp).totalHoras = (reportePTAP registros hp).totalHoras ∧
    redondear2 (reportePTAP registros hp).horasNormales =
      (reportePTAP registros hp).horasNormales ∧
    redondear2 (reportePTAP registros hp).horasExtra = (reportePTAP registros hp).horasExtra ∧
    redondear2 (reportePTAP registros hp).horasDominicales =
      (reportePTAP registros hp).horasDominicales ∧
    redondear2 (reportePTAP registros hp).horasNocturnas =
      (reportePTAP registros hp).horasNocturnas ∧
    redondear2 (reportePTAP registros hp).horasPermiso =
      (reportePTAP registros hp).horasPermiso ∧
    redondear2 (reportePTAR registros hp).totalHoras = (reportePTAR registros hp).totalHoras ∧
    redondear2 (reportePTAR registros hp).horasNormales =
      (reportePTAR registros hp).horasNormales ∧
    redondear2 (reportePTAR registros hp).horasExtra = (reportePTAR registros hp).horasExtra ∧
    redondear2 (reportePTAR registros hp).horasDominicales =
      (reportePTAR registros hp).horasDominicales ∧
    redondear2 (reportePTAR registros hp).horasNocturnas =
      (reportePTAR registros hp).horasNocturnas ∧
    redondear2 (reportePTAR registros hp).horasPermiso =
      (reportePTAR registros hp).horasPermiso :=
  ⟨redondear2_idem _, redondear2_idem _, redondear2_idem _, redondear2_idem _,
   redondear2_zero, redondear2_idem _, redondear2_idem _, redondear2_idem _,
   redondear2_idem _, redondear2_zero, redondear2_idem _, redondear2_idem _⟩

-- ==================== C7: absence aggregation ====================

/-- The absence-hours reduce is the sum of the mapped `horasPermiso`
fields. -/
theorem foldl_add_horasPermiso (l : List Permiso) :
    ∀ a : ℚ, l.foldl (fun sum p => sum + p.horasPermiso) a =
      a + (l.map Permiso.horasPermiso).sum := by
  induction l with
  | nil => intro a; simp
  | cons p rest ih =>
    intro a
    simp only [List.foldl_cons, List.map_cons, List.sum_cons, ih, add_assoc]

/-- C7.  The reported `horasPermiso` is (the report's 2-decimal rounding
of) the sum of the `hours` field over exactly the absence records whose
date string lies in `[desde, hasta]` under lexicographic comparison; and
absences change nothing else: every other field of either report is
identical no matter which absence list is supplied. -/
theorem c7_absence_totals (registros : List Registro) (permisos : List Permiso)
    (desde hasta : String) :
    (reporteHorasPTAP registros permisos desde hasta).horasPermiso =
      redondear2 (((permisos.filter
        (fun p => desde ≤ p.fechaPermiso ∧ p.fechaPermiso ≤ hasta)).map
          Permiso.horasPermiso).sum) ∧
    (reporteHorasPTAR registros permisos desde hasta).horasPermiso =
      redondear2 (((permisos.filter
        (fun p => desde ≤ p.fechaPermiso ∧ p.fechaPermiso ≤ hasta)).map
          Permiso.horasPermiso).sum) ∧
    (∀ permisos' : List Permiso,
      (reporteHorasPTAP registros permisos desde hasta).totalHoras =
        (reporteHorasPTAP registros permisos' desde hasta).totalHoras ∧
      (reporteHorasPTAP registros permisos desde hasta).horasNormales =
        (reporteHorasPTAP registros permisos' desde hasta).horasNormales ∧
      (reporteHorasPTAP registros permisos desde hasta).horasExtra =
        (reporteHorasPTAP registros permisos' desde hasta).horasExtra ∧
      (reporteHorasPTAP registros permisos desde hasta).horasDominicales =
        (reporteHorasPTAP registros permisos' desde hasta).horasDominicales ∧
      (reporteHorasPTAP registros permisos desde hasta).horasNocturnas =
        (reporteHorasPTAP registros permisos' desde hasta).horasNocturnas ∧
      (reporteHorasPTAP registros permisos desde hasta).detalle =
        (reporteHorasPTAP registros permisos' desde hasta).detalle ∧
      (reporteHorasPTAR registros permisos desde hasta).totalHoras =
        (reporteHorasPTAR registros permisos' desde hasta).totalHoras ∧
      (reporteHorasPTAR registros permisos desde hasta).horasNormales =
        (reporteHorasPTAR registros permisos' desde hasta).horasNormales ∧
      (reporteHorasPTAR registros permisos desde hasta).horasExtra =
        (reporteHorasPTAR registros permisos' desde hasta).horasExtra ∧
      (reporteHorasPTAR registros permisos desde hasta).horasDominicales =
        (reporteHorasPTAR registros permisos' desde hasta).horasDominicales ∧
      (reporteHorasPTAR registros permisos desde hasta).horasNocturnas =
        (reporteHorasPTAR registros permisos' desde hasta).horasNocturnas ∧
      (reporteHorasPTAR registros permisos desde hasta).detalleSemanas =
        (reporteHorasPTAR registros permisos' desde hasta).detalleSemanas ∧
      (reporteHorasPTAR registros permisos desde hasta).detalleDias =
        (reporteHorasPTAR registros permisos' desde hasta).detalleDias) := by
  refine ⟨?_, ?_, ?_⟩
  · show redondear2 (totalHorasPermisoDe permisos desde hasta) = _
    rw [totalHorasPermisoDe, foldl_add_horasPermiso, zero_add, permisosEnRango]
  · show redondear2 (totalHorasPermisoDe permisos desde hasta) = _
    rw [totalHorasPermisoDe, foldl_add_horasPermiso, zero_add, permisosEnRango]
  · intro permisos'
    exact ⟨rfl, rfl, rfl, rfl, rfl, rfl, rfl, rfl, rfl, rfl, rfl, rfl, rfl⟩

-- ==================== C10: dependence on kind and timestamp only ====================

/-- The interval-pairing step reads only `tipo` and `creadoEn`. -/
theorem pasoIntervalos_congr (st : Option ℤ × List (ℤ × ℤ)) (r₁ r₂ : Registro)
    (ht : r₁.tipo = r₂.tipo) (hc : r₁.creadoEn = r₂.creadoEn) :
    pasoIntervalos st r₁ = pasoIntervalos st r₂ := by
  simp only [pasoIntervalos, ht, hc]

/-- The interval builder depends only on the `(tipo, creadoEn)`
projection of the event list. -/
theorem calcIntervalos_proj :
    ∀ (l₁ l₂ : List Registro),
      l₁.map (fun r => (r.tipo, r.creadoEn)) = l₂.map (fun r => (r.tipo, r.creadoEn)) →
      ∀ st, l₁.foldl pasoIntervalos st = l₂.foldl pasoIntervalos st := by
  intro l₁
  induction l₁ with
  | nil =>
    intro l₂ h st
    have : l₂ = [] := by
      cases l₂ with
      | nil => rfl
      | cons r rest => simp at h
    rw [this]
  | cons r₁ rest₁ ih =>
    intro l₂ h st
    cases l₂ with
    | nil => simp at h
    | cons r₂ rest₂ =>
      simp only [List.map_cons, List.cons.injEq, Prod.mk.injEq] at h
      obtain ⟨⟨ht, hc⟩, hrest⟩ := h
      simp only [List.foldl_cons]
      rw [pasoIntervalos_congr st r₁ r₂ ht hc]
      exact ih rest₂ hrest (pasoIntervalos st r₂)

/-- The absence aggregate depends only on the `(fechaPermiso,
horasPermiso)` projection of the absence list. -/
theorem totalHorasPermisoDe_proj :
    ∀ (l₁ l₂ : List Permiso),
      l₁.map (fun p => (p.fechaPermiso, p.horasPermiso)) =
        l₂.map (fun p => (p.fechaPermiso, p.horasPermiso)) →
      ∀ desde hasta, totalHorasPermisoDe l₁ desde hasta = totalHorasPermisoDe l₂ desde hasta := by
  intro l₁
  induction l₁ with
  | nil =>
    intro l₂ h desde hasta
    have : l₂ = [] := by
      cases l₂ with
      | nil => rfl
      | cons p rest => simp at h
    rw [this]
  | cons p₁ rest₁ ih =>
    intro l₂ h desde hasta
    cases l₂ with
    | nil => simp at h
    | cons p₂ rest₂ =>
      simp only [List.map_cons, List.cons.injEq, Prod.mk.injEq] at h
      obtain ⟨⟨hf, hh⟩, hrest⟩ := h
      have hr := ih rest₂ hrest desde hasta
      simp only [totalHorasPermisoDe, permisosEnRango, List.filter_cons, hf] at hr ⊢
      rw [foldl_add_horasPermiso, foldl_add_horasPermiso, zero_add, zero_add] at hr
      by_cases hb : (decide (desde ≤ p₂.fechaPermiso ∧ p₂.fechaPermiso ≤ hasta)) = true
      · rw [if_pos hb, if_pos hb]
        simp only [List.foldl_cons]
        rw [foldl_add_horasPermiso, foldl_add_horasPermiso, hh, hr]
      · rw [if_neg hb, if_neg hb]
        rw [foldl_add_horasPermiso, foldl_add_horasPermiso, zero_add, zero_add, hr]

/-- C10.  The reports depend only on each clock event's kind and
timestamp and on each absence record's date and hours: runs agreeing on
those projections produce identical reports whatever the geolocation,
distance, geofence flag, justification and shift fields contain. -/
theorem c10_projection_invariance (registros₁ registros₂ : List Registro)
    (permisos₁ permisos₂ : List Permiso) (desde hasta : String)
    (hreg : registros₁.map (fun r => (r.tipo, r.creadoEn)) =
            registros₂.map (fun r => (r.tipo, r.creadoEn)))
    (hper : permisos₁.map (fun p => (p.fechaPermiso, p.horasPermiso)) =
            permisos₂.map (fun p => (p.fechaPermiso, p.horasPermiso))) :
    reporteHorasPTAP registros₁ permisos₁ desde hasta =
      reporteHorasPTAP registros₂ permisos₂ desde hasta ∧
    reporteHorasPTAR registros₁ permisos₁ desde hasta =
      reporteHorasPTAR registros₂ permisos₂ desde hasta := by
  have hint : calcIntervalos registros₁ = calcIntervalos registros₂ := by
    simp only [calcIntervalos, intervalosDesde]
    rw [calcIntervalos_proj registros₁ registros₂ hreg]
  have hperm : totalHorasPermisoDe permisos₁ desde hasta =
      totalHorasPermisoDe permisos₂ desde hasta :=
    totalHorasPermisoDe_proj permisos₁ permisos₂ hper desde hasta
  constructor
  · simp only [reporteHorasPTAP, reportePTAP, acumPTAP, hint, hperm]
  · simp only [reporteHorasPTAR, reportePTAR, semanasConTope, acumPTAR, hint, hperm]

/-- Witness for C10: two single-event runs whose events agree on kind and
timestamp but differ in latitude produce identical PTAP reports. -/
theorem c10_projection_invariance_witness :
    reporteHorasPTAP [regDe Tipo.ingreso 28800000] [] "2025-01-01" "2025-01-31" =
      reporteHorasPTAP [{ regDe Tipo.ingreso 28800000 with lat := 1 }] []
        "2025-01-01" "2025-01-31" :=
  (c10_projection_invariance [regDe Tipo.ingreso 28800000]
    [{ regDe Tipo.ingreso 28800000 with lat := 1 }] [] [] "2025-01-01" "2025-01-31"
    rfl rfl).1
